import Mathlib

/-!
Verification development for a Go HTTP reverse proxy
(rate limiter, circuit breaker, round-robin load balancer,
middleware chain, dispatcching proxy handler).

The Go sources are shallowly embedded: machine integers become `Nat`
with explicit `% 2 ^ 64` where the Go code uses `uint64`, `time.Time`
and `time.Duration` become `Int` nanosecond counts, the mutable
per-request `http.ResponseWriter` chain becomes an explicit `RespWriter`
value threaded through handler functions, and process state (rate
limiter window, circuit breaker map, load balancer counter, metric
counters) becomes an explicit `World` record.  Every operation is a
pure function from old state to new state, mirroring the Go statements
in source order.
-/

/-- Modulus of the Go `uint64` type (counters in the sources use
`atomic.AddUint64`, which wraps at this modulus). -/
def uint64Mod : Nat := 2 ^ 64

/-- One second expressed in the nanosecond time unit used by the model
(`time.Second` in Go is 1e9 nanoseconds). -/
def oneSecond : Int := 1000000000

/-! ## Circuit breaker (middleware/circuitbreaker.go) -/

/-- The three circuit states, mirroring the Go `CircuitState` constants. -/
inductive CircuitState where
  | StateClosed
  | StateOpen
  | StateHalfOpen
deriving DecidableEq, Repr

/-- Per-backend circuit state, mirroring the Go `backendState` struct.
`lastFailureTime` is the nanosecond timestamp of the most recent failure
(the Go zero `time.Time` is modelled as 0). -/
structure BackendState where
  state : CircuitState
  failureCount : Nat
  lastFailureTime : Int
deriving DecidableEq, Repr

/-- Lookup in the Go map `map[string]*backendState`, modelled as an
association list with at most one entry per key. -/
def lookupBackend (l : List (String × BackendState)) (k : String) : Option BackendState :=
  match l with
  | [] => none
  | (k', v) :: rest => if k' = k then some v else lookupBackend rest k

/-- Map insertion with replacement, mirroring Go map assignment. -/
def insertBackend (l : List (String × BackendState)) (k : String) (v : BackendState) :
    List (String × BackendState) :=
  match l with
  | [] => [(k, v)]
  | (k', v') :: rest =>
    if k' = k then (k, v) :: rest else (k', v') :: insertBackend rest k v

/-- The Go `CircuitBreaker` struct: a keyed map of backend records plus
the failure threshold and the open-state timeout. -/
structure CircuitBreaker where
  backends : List (String × BackendState)
  failureThreshold : Nat
  timeout : Int
deriving DecidableEq, Repr

/-- Go `NewCircuitBreaker` from the source: empty map, threshold 5,
timeout 10 seconds. -/
def NewCircuitBreaker : CircuitBreaker :=
  { backends := [], failureThreshold := 5, timeout := 10 * oneSecond }

/-- Go `CircuitBreaker.OnBackendFailure`: create the record if absent
(Go creates `&backendState{state: StateClosed}`), increment the failure
count, stamp the failure time, and open the circuit once the count
reaches the threshold (`failureCount >= failureThreshold`). -/
def OnBackendFailure (cb : CircuitBreaker) (backend : String) (now : Int) : CircuitBreaker :=
  let st := (lookupBackend cb.backends backend).getD
    { state := .StateClosed, failureCount := 0, lastFailureTime := 0 }
  let st := { st with failureCount := st.failureCount + 1, lastFailureTime := now }
  let st := if cb.failureThreshold ≤ st.failureCount then { st with state := .StateOpen } else st
  { cb with backends := insertBackend cb.backends backend st }

/-- Go `CircuitBreaker.OnBackendSuccess`: if no record exists the call
returns immediately (no record is created); otherwise the failure count
is reset to 0 and a half-open record becomes closed. -/
def OnBackendSuccess (cb : CircuitBreaker) (backend : String) : CircuitBreaker :=
  match lookupBackend cb.backends backend with
  | none => cb
  | some st =>
    let st := { st with failureCount := 0 }
    let st := if st.state = .StateHalfOpen then { st with state := .StateClosed } else st
    { cb with backends := insertBackend cb.backends backend st }

/-- Go `CircuitBreaker.IsBackendOpen`: absent records are created closed and
report not-open; an open record reports open while
`time.Since(lastFailureTime) <= timeout`, and flips to half-open
(reporting not-open) once strictly more than the timeout has elapsed;
closed and half-open records report not-open with no state change.
Returns the reported flag together with the updated breaker. -/
def IsBackendOpen (cb : CircuitBreaker) (backend : String) (now : Int) :
    Bool × CircuitBreaker :=
  match lookupBackend cb.backends backend with
  | none =>
    (false,
     { cb with backends := insertBackend cb.backends backend ⟨.StateClosed, 0, 0⟩ })
  | some st =>
    if st.state = .StateOpen then
      if cb.timeout < now - st.lastFailureTime then
        (false,
         { cb with backends :=
             insertBackend cb.backends backend { st with state := .StateHalfOpen } })
      else
        (true, cb)
    else
      (false, cb)

/-! ## Rate limiter (middleware/ratelimiter.go) -/

/-- The Go `RateLimiter`: retained request timestamps plus the
requests-per-second limit. -/
structure RateLimiter where
  timestamps : List Int
  rps : Nat
deriving DecidableEq, Repr

/-- Go `NewRateLimiter`: empty window. -/
def NewRateLimiter (rps : Nat) : RateLimiter := { timestamps := [], rps := rps }

/-- Go `RateLimiter.Allow`: drop window entries with `ts.After(now - 1s)`
false (that is, keep entries strictly newer than `now - 1s`), then
allow and append `now` when the remaining count is below the limit. -/
def RateLimiter.Allow (rl : RateLimiter) (now : Int) : Bool × RateLimiter :=
  let window := now - oneSecond
  let pruned := rl.timestamps.filter (fun ts => decide (window < ts))
  if pruned.length < rl.rps then
    (true, { timestamps := pruned ++ [now], rps := rl.rps })
  else
    (false, { timestamps := pruned, rps := rl.rps })

/-- Sequential driver for `Allow`: feed a list of call times through the
limiter, collecting the verdicts. -/
def runAllow (rl : RateLimiter) : List Int → List Bool × RateLimiter
  | [] => ([], rl)
  | c :: cs =>
    let r := rl.Allow c
    let rest := runAllow r.2 cs
    (r.1 :: rest.1, rest.2)

/-- The call times at which `Allow` returned true, in call order. -/
def admittedTimes (rl : RateLimiter) : List Int → List Int
  | [] => []
  | c :: cs =>
    let r := rl.Allow c
    if r.1 then c :: admittedTimes r.2 cs else admittedTimes r.2 cs

/-! ## Load balancer (loadbalancer/loadbalancer.go) -/

/-- The Go `LoadBalancer`: fixed backend list plus the `uint64`
round-robin counter. -/
structure LoadBalancer where
  backends : List String
  current : Nat
deriving DecidableEq, Repr

/-- Go `loadbalancer.New`: counter starts at 0. -/
def LoadBalancer.New (backends : List String) : LoadBalancer :=
  { backends := backends, current := 0 }

/-- The scan loop inside `Next`: try offsets `i` in order, probing
`backends[(start+i) % len]` through `IsBackendOpen` (which may mutate
the breaker), returning the first backend reported not-open, or the
empty string after the offset list is exhausted. -/
def scanBackends (backends : List String) (start : Nat) (now : Int) :
    List Nat → CircuitBreaker → String × CircuitBreaker
  | [], cb => ("", cb)
  | i :: rest, cb =>
    let idx := ((start + i) % uint64Mod) % backends.length
    let b := backends.getD idx ""
    let probe := IsBackendOpen cb b now
    if probe.1 then scanBackends backends start now rest probe.2 else (b, probe.2)

/-- Go `LoadBalancer.Next`: an empty pool returns the empty string at once
(without touching the counter); otherwise the counter is atomically
incremented (wrapping as `uint64`) and at most `len` consecutive
candidates are scanned starting at the new counter value. -/
def LoadBalancer.Next (lb : LoadBalancer) (cb : CircuitBreaker) (now : Int) :
    String × LoadBalancer × CircuitBreaker :=
  if lb.backends.length = 0 then ("", lb, cb)
  else
    let start := (lb.current + 1) % uint64Mod
    let scanned := scanBackends lb.backends start now (List.range lb.backends.length) cb
    (scanned.1, { lb with current := start }, scanned.2)

/-- Iterate `Next` a given number of times, collecting the returned
backends and threading the balancer and breaker state. -/
def nextCalls (lb : LoadBalancer) (cb : CircuitBreaker) (now : Int) :
    Nat → List String × LoadBalancer × CircuitBreaker
  | 0 => ([], lb, cb)
  | n + 1 =>
    let r := lb.Next cb now
    let rest := nextCalls r.2.1 r.2.2 now n
    (r.1 :: rest.1, rest.2)

/-- A backend is available to the selector when its record, if any, is
closed (fresh backends count as closed). -/
def backendAvailable (cb : CircuitBreaker) (b : String) : Prop :=
  ((lookupBackend cb.backends b).map BackendState.state).getD .StateClosed = .StateClosed

instance (cb : CircuitBreaker) (b : String) : Decidable (backendAvailable cb b) := by
  unfold backendAvailable; infer_instance

/-! ## Metrics (metrics/metrics.go) -/

/-- The three process-wide `uint64` counters. -/
structure Metrics where
  RequestCount : Nat
  ResponseCount : Nat
  ErrorCount : Nat
deriving DecidableEq, Repr

/-- Go `metrics.New`: all counters zero. -/
def Metrics.New : Metrics := { RequestCount := 0, ResponseCount := 0, ErrorCount := 0 }

/-- Go `IncRequest`, wrapping as `uint64`. -/
def Metrics.IncRequest (m : Metrics) : Metrics :=
  { m with RequestCount := (m.RequestCount + 1) % uint64Mod }

/-- Go `IncResponse`, wrapping as `uint64`. -/
def Metrics.IncResponse (m : Metrics) : Metrics :=
  { m with ResponseCount := (m.ResponseCount + 1) % uint64Mod }

/-- Go `IncError`, wrapping as `uint64`. -/
def Metrics.IncError (m : Metrics) : Metrics :=
  { m with ErrorCount := (m.ErrorCount + 1) % uint64Mod }

/-! ## Response writers (middleware/response_writer.go and net/http) -/

/-- The underlying `http.ResponseWriter` provided by the Go HTTP server:
the status line is sent at most once (the first `WriteHeader`, or
implicitly 200 on the first body write), headers are a settable map, and
the body is an append-only byte stream (modelled as characters). -/
structure BaseWriter where
  status : Option Nat
  headers : List (String × String)
  body : List Char
deriving DecidableEq, Repr

/-- A writer as seen by a handler: the base writer plus the stack of
`middleware.ResponseWriter` wrappers created around it so far.  Each
entry is the `StatusCode` field of one wrapper (0 until a `WriteHeader`
call passes through it); earlier (outer-stage) wrappers come first. -/
structure RespWriter where
  base : BaseWriter
  wrappers : List Nat
deriving DecidableEq, Repr

/-- A fresh writer, as handed to the handler chain by the HTTP server. -/
def NewWriter : RespWriter := { base := ⟨none, [], []⟩, wrappers := [] }

/-- Wrap the writer in a new `middleware.ResponseWriter` (Go
`&ResponseWriter{ResponseWriter: w}`, `StatusCode` zero). -/
def RespWriter.pushWrapper (w : RespWriter) : RespWriter :=
  { w with wrappers := w.wrappers ++ [0] }

/-- Go `WriteHeader` on the outermost wrapper: every wrapper on the stack
records the code (each wrapper sets its `StatusCode` and delegates
inward), and the base writer honours only the first status. -/
def RespWriter.writeHeader (w : RespWriter) (code : Nat) : RespWriter :=
  { base :=
      if w.base.status.isSome then w.base else { w.base with status := some code },
    wrappers := w.wrappers.map (fun _ => code) }

/-- Go `Write` on the outermost wrapper: the embedded method is promoted,
so wrapper `StatusCode` fields are untouched; the base writer sends an
implicit 200 status if none was written yet, then appends the bytes. -/
def RespWriter.write (w : RespWriter) (bytes : List Char) : RespWriter :=
  let b := if w.base.status.isSome then w.base else { w.base with status := some 200 }
  { w with base := { b with body := b.body ++ bytes } }

/-- Go `Header().Set(key, value)`: replace or append in the header map. -/
def headerSet (h : List (String × String)) (k v : String) : List (String × String) :=
  match h with
  | [] => [(k, v)]
  | (k', v') :: rest => if k' = k then (k, v) :: rest else (k', v') :: headerSet rest k v

/-- Header mutation through the writer stack (only the base writer holds
the header map). -/
def RespWriter.setHeader (w : RespWriter) (k v : String) : RespWriter :=
  { w with base := { w.base with headers := headerSet w.base.headers k v } }

/-! ## Errors (errors/errors.go) -/

/-- The Go `HTTPError` value passed to `HandleError`. -/
structure HTTPError where
  Status : Nat
  Message : String
deriving DecidableEq, Repr

/-- Go `errors.HandleError`: log (outside the model) and call
`http.Error`, which sets the two plain-text headers, writes the status
and writes the message followed by a newline. -/
def HandleError (w : RespWriter) (e : HTTPError) : RespWriter :=
  let w := w.setHeader "Content-Type" "text/plain; charset=utf-8"
  let w := w.setHeader "X-Content-Type-Options" "nosniff"
  let w := w.writeHeader e.Status
  w.write (e.Message.data ++ ['\n'])

/-! ## Requests and the network (proxy/server.go environment) -/

/-- An inbound HTTP request as the handlers see it: method, URL path,
raw query, URL host (`r.URL.Host`), header map and body stream. -/
structure Request where
  method : String
  path : String
  rawQuery : String
  urlHost : String
  headers : List (String × String)
  body : List Char
deriving DecidableEq, Repr

/-- The outbound request built by the dispatcher
(`http.NewRequest(method, targetURL, body)` starts with a fresh, empty
header map). -/
structure ProxyRequest where
  method : String
  url : String
  headers : List (String × String)
  body : List Char
deriving DecidableEq, Repr

/-- A completed backend response: status, headers, body, and whether
streaming the body back to the caller succeeds (`io.Copy` error slot).
When `bodyOk` is false the model copies the body bytes and then fails,
matching a copy error after an incomplete (here: full) transfer. -/
structure BackendResponse where
  status : Nat
  headers : List (String × String)
  body : List Char
  bodyOk : Bool
deriving DecidableEq, Repr

/-- Go `targetURL` construction from `ServeHTTP`: backend base URL plus
path, plus `?query` only when the raw query is nonempty. -/
def targetURL (backend : String) (r : Request) : String :=
  backend ++ r.path ++ (if r.rawQuery = "" then "" else "?" ++ r.rawQuery)

/-- The proxy request built by `ServeHTTP`: inbound method, target URL,
a fresh (empty) header map, and the inbound body stream.  No inbound
header is copied. -/
def buildProxyReq (backend : String) (r : Request) : ProxyRequest :=
  { method := r.method, url := targetURL backend r, headers := [], body := r.body }

/-- The whole mutable process state threaded through one request, plus
the environment: the wall clock, the four stateful components, the
network (`client.Do`, `none` meaning a transport error) and the
`http.NewRequest` success predicate. -/
structure World where
  now : Int
  rl : RateLimiter
  cb : CircuitBreaker
  lb : LoadBalancer
  metrics : Metrics
  net : ProxyRequest → Option BackendResponse
  newRequestOk : ProxyRequest → Bool

/-- A request handler: old world and writer to new world and writer. -/
abbrev Handler : Type := World → RespWriter → Request → World × RespWriter

/-! ## Handlers and middleware (proxy/server.go, middleware files) -/

/-- Go `ProxyHandler.ServeHTTP`, the terminal dispatch stage, in Go
statement order: count the request, wrap the writer, pick a backend
(empty string means none), build and send the proxy request, and on a
completed response report success, copy the body and count the
response; each error path counts an error and writes one error
response. -/
def ProxyHandler.ServeHTTP : Handler := fun world w r =>
  let world := { world with metrics := world.metrics.IncRequest }
  let w := w.pushWrapper
  let nx := world.lb.Next world.cb world.now
  let backend := nx.1
  let world := { world with lb := nx.2.1, cb := nx.2.2 }
  if backend = "" then
    ({ world with metrics := world.metrics.IncError },
     HandleError w ⟨503, "No backends available"⟩)
  else
    let preq := buildProxyReq backend r
    if world.newRequestOk preq then
      match world.net preq with
      | none =>
        ({ world with metrics := world.metrics.IncError,
                      cb := OnBackendFailure world.cb backend world.now },
         HandleError w ⟨502, "Error forwarding request"⟩)
      | some resp =>
        let world := { world with cb := OnBackendSuccess world.cb backend }
        let w := if resp.body.isEmpty then w else w.write resp.body
        if resp.bodyOk then
          ({ world with metrics := world.metrics.IncResponse }, w)
        else
          ({ world with metrics := world.metrics.IncError },
           HandleError w ⟨500, "Error copying response"⟩)
    else
      ({ world with metrics := world.metrics.IncError },
       HandleError w ⟨500, "Error creating proxy request"⟩)

/-- Go `RateLimiter.Middleware`: consult `Allow`; denied requests receive
the 429 error response and the next stage never runs. -/
def RateLimiter.Middleware (next : Handler) : Handler := fun world w r =>
  let a := world.rl.Allow world.now
  let world := { world with rl := a.2 }
  if a.1 then next world w r
  else (world, HandleError w ⟨429, "Rate limit exceeded"⟩)

/-- Go `CircuitBreaker.Middleware`: key on `r.URL.Host`; reject with 503
when the circuit for that key is open; otherwise wrap the writer, run
the next stage, and report failure for the key when the wrapper
recorded a status of 500 or more, success otherwise. -/
def CircuitBreaker.Middleware (next : Handler) : Handler := fun world w r =>
  let backend := r.urlHost
  let probe := IsBackendOpen world.cb backend world.now
  let world := { world with cb := probe.2 }
  if probe.1 then
    (world, HandleError w ⟨503, "Circuit breaker is open"⟩)
  else
    let k := w.wrappers.length
    let res := next world w.pushWrapper r
    if 500 ≤ res.2.wrappers.getD k 0 then
      ({ res.1 with cb := OnBackendFailure res.1.cb backend res.1.now }, res.2)
    else
      ({ res.1 with cb := OnBackendSuccess res.1.cb backend }, res.2)

/-- Go `middleware.Logging`: wrap the writer (to capture the status for the
log line) and run the next stage; the log output itself is outside the
model. -/
def Logging (next : Handler) : Handler := fun world w r =>
  next world w.pushWrapper r

/-- Go `middleware.Chain`: the Go loop applies the middleware slice from
the last index down to index 0, so the first element ends up outermost. -/
def Chain (h : Handler) : List (Handler → Handler) → Handler
  | [] => h
  | m :: rest => m (Chain h rest)

/-- The handler `Server.createHandler` installs on the proxy route:
`Chain(proxy, limiter.Middleware, circuitBreak.Middleware, Logging)`. -/
def Server.createHandler : Handler :=
  Chain ProxyHandler.ServeHTTP
    [RateLimiter.Middleware, CircuitBreaker.Middleware, Logging]

/-- Modelled from the spec (not from the code): the composition order
claimed in the specification, with the observability stage outermost,
the health-tracking stage next, and the admission stage innermost
around the terminal dispatcher.  Used only to compare against
`Server.createHandler`. -/
def claimedPipelineHandler : Handler :=
  Chain ProxyHandler.ServeHTTP
    [Logging, CircuitBreaker.Middleware, RateLimiter.Middleware]

/-- A concrete environment for evaluating the pipeline on closed
inputs: clock at 0, the given rate limit, a fresh breaker, fresh
metrics, the given pool, the given network behaviour, and request
construction always succeeding. -/
def demoWorld (rps : Nat) (backends : List String)
    (net : ProxyRequest → Option BackendResponse) : World :=
  { now := 0, rl := NewRateLimiter rps, cb := NewCircuitBreaker,
    lb := LoadBalancer.New backends, metrics := Metrics.New,
    net := net, newRequestOk := fun _ => true }

/-- A concrete GET request to the root path with the given URL host. -/
def demoRequest (host : String) : Request :=
  { method := "GET", path := "/", rawQuery := "", urlHost := host,
    headers := [], body := [] }

/-! ## Helper lemmas on the backend map -/

theorem lookup_insertBackend_self (l : List (String × BackendState)) (k : String)
    (v : BackendState) : lookupBackend (insertBackend l k v) k = some v := by
  induction l with
  | nil => simp [insertBackend, lookupBackend]
  | cons hd tl ih =>
    obtain ⟨k', v'⟩ := hd
    by_cases h : k' = k
    · simp [insertBackend, lookupBackend, h]
    · simp [insertBackend, lookupBackend, h, ih]

theorem lookup_insertBackend_ne (l : List (String × BackendState)) (k k' : String)
    (v : BackendState) (h : k ≠ k') :
    lookupBackend (insertBackend l k v) k' = lookupBackend l k' := by
  induction l with
  | nil => simp [insertBackend, lookupBackend, h]
  | cons hd tl ih =>
    obtain ⟨k₀, v₀⟩ := hd
    by_cases h₀ : k₀ = k
    · subst h₀; simp [insertBackend, lookupBackend, h]
    · simp [insertBackend, lookupBackend, h₀, ih]

/-! ## Claim C3 -/

/-- Claim C3: a `ReportFailure` (`OnBackendFailure`) call that makes the
failure count reach the threshold while the backend record is closed
(an absent record counts as closed with count 0) opens the circuit, and
every availability check immediately afterwards (any check at most the
timeout after the failure) reports the backend open, that is,
`IsAvailable` is false.  The default threshold is 5. -/
theorem claim_C3_threshold_opens (cb : CircuitBreaker) (b : String) (now : Int)
    (hclosed : ((lookupBackend cb.backends b).getD ⟨.StateClosed, 0, 0⟩).state = .StateClosed)
    (hreach : cb.failureThreshold ≤
      ((lookupBackend cb.backends b).getD ⟨.StateClosed, 0, 0⟩).failureCount + 1) :
    NewCircuitBreaker.failureThreshold = 5 ∧
    (lookupBackend (OnBackendFailure cb b now).backends b).map BackendState.state =
      some .StateOpen ∧
    ∀ t : Int, t - now ≤ cb.timeout → (IsBackendOpen (OnBackendFailure cb b now) b t).1 = true := by
  refine ⟨rfl, ?_, ?_⟩
  · simp [OnBackendFailure, hreach, lookup_insertBackend_self]
  · intro t ht
    have hnot : ¬ cb.timeout < t - now := by omega
    simp only [OnBackendFailure, if_pos hreach]
    simp [IsBackendOpen, lookup_insertBackend_self, hnot]

/-- Witness for C3 at a concrete breaker: a closed record with four
recorded failures and threshold 5 opens on the fifth failure, and a
check five seconds later still reports open. -/
theorem claim_C3_witness :
    ((lookupBackend (CircuitBreaker.mk [("a", ⟨.StateClosed, 4, 0⟩)] 5 (10 * oneSecond)).backends
        "a").getD ⟨.StateClosed, 0, 0⟩).state = .StateClosed ∧
    (CircuitBreaker.mk [("a", ⟨.StateClosed, 4, 0⟩)] 5 (10 * oneSecond)).failureThreshold ≤
      ((lookupBackend (CircuitBreaker.mk [("a", ⟨.StateClosed, 4, 0⟩)] 5 (10 * oneSecond)).backends
        "a").getD ⟨.StateClosed, 0, 0⟩).failureCount + 1 ∧
    (IsBackendOpen
      (OnBackendFailure (CircuitBreaker.mk [("a", ⟨.StateClosed, 4, 0⟩)] 5 (10 * oneSecond)) "a" 0)
      "a" (5 * oneSecond)).1 = true := by
  refine ⟨by decide, by decide, ?_⟩
  exact (claim_C3_threshold_opens _ "a" 0 (by decide) (by decide)).2.2 (5 * oneSecond) (by decide)

/-! ## Claim C4 -/

/-- Claim C4: for a backend whose record is open, every availability
check at most the timeout (default 10 s) after `lastFailureTime`
reports open (`IsAvailable` false) and changes nothing; the first check
strictly after the timeout reports not-open (`IsAvailable` true) and
flips exactly the state field to half-open; and on a half-open record
every check reports not-open and changes nothing, so availability
checks alone never re-open the circuit. -/
theorem claim_C4_open_timeout_halfopen :
    NewCircuitBreaker.timeout = 10 * oneSecond ∧
    ∀ (cb : CircuitBreaker) (b : String) (st : BackendState) (t : Int),
      lookupBackend cb.backends b = some st →
      (st.state = .StateOpen →
        (t - st.lastFailureTime ≤ cb.timeout → IsBackendOpen cb b t = (true, cb)) ∧
        (cb.timeout < t - st.lastFailureTime →
          (IsBackendOpen cb b t).1 = false ∧
          lookupBackend (IsBackendOpen cb b t).2.backends b =
            some { st with state := .StateHalfOpen })) ∧
      (st.state = .StateHalfOpen → IsBackendOpen cb b t = (false, cb)) := by
  refine ⟨rfl, ?_⟩
  intro cb b st t hlk
  constructor
  · intro hopen
    constructor
    · intro ht
      have hnot : ¬ cb.timeout < t - st.lastFailureTime := by omega
      simp [IsBackendOpen, hlk, hopen, hnot]
    · intro ht
      simp [IsBackendOpen, hlk, hopen, ht, lookup_insertBackend_self]
  · intro hhalf
    have hno : st.state ≠ CircuitState.StateOpen := by simp [hhalf]
    simp [IsBackendOpen, hlk, hno]

/-- Witness for C4 at a concrete breaker: an open record with failure
time 0 and timeout 10 s reports open at t = 10 s, reports not-open at
t = 10 s + 1 ns flipping to half-open, and the half-open record then
reports not-open without any change. -/
theorem claim_C4_witness :
    lookupBackend (CircuitBreaker.mk [("a", ⟨.StateOpen, 5, 0⟩)] 5 (10 * oneSecond)).backends "a" =
      some ⟨.StateOpen, 5, 0⟩ ∧
    IsBackendOpen (CircuitBreaker.mk [("a", ⟨.StateOpen, 5, 0⟩)] 5 (10 * oneSecond)) "a"
        (10 * oneSecond) =
      (true, CircuitBreaker.mk [("a", ⟨.StateOpen, 5, 0⟩)] 5 (10 * oneSecond)) ∧
    (IsBackendOpen (CircuitBreaker.mk [("a", ⟨.StateOpen, 5, 0⟩)] 5 (10 * oneSecond)) "a"
        (10 * oneSecond + 1)).1 = false ∧
    lookupBackend (IsBackendOpen (CircuitBreaker.mk [("a", ⟨.StateOpen, 5, 0⟩)] 5 (10 * oneSecond))
        "a" (10 * oneSecond + 1)).2.backends "a" = some ⟨.StateHalfOpen, 5, 0⟩ ∧
    IsBackendOpen (CircuitBreaker.mk [("a", ⟨.StateHalfOpen, 5, 0⟩)] 5 (10 * oneSecond)) "a"
        (20 * oneSecond) =
      (false, CircuitBreaker.mk [("a", ⟨.StateHalfOpen, 5, 0⟩)] 5 (10 * oneSecond)) := by
  have h1 := (claim_C4_open_timeout_halfopen.2
    (CircuitBreaker.mk [("a", ⟨.StateOpen, 5, 0⟩)] 5 (10 * oneSecond)) "a"
    ⟨.StateOpen, 5, 0⟩ (10 * oneSecond) (by decide)).1 (by decide)
  have h2 := (claim_C4_open_timeout_halfopen.2
    (CircuitBreaker.mk [("a", ⟨.StateOpen, 5, 0⟩)] 5 (10 * oneSecond)) "a"
    ⟨.StateOpen, 5, 0⟩ (10 * oneSecond + 1) (by decide)).1 (by decide)
  have h3 := (claim_C4_open_timeout_halfopen.2
    (CircuitBreaker.mk [("a", ⟨.StateHalfOpen, 5, 0⟩)] 5 (10 * oneSecond)) "a"
    ⟨.StateHalfOpen, 5, 0⟩ (20 * oneSecond) (by decide)).2 (by decide)
  refine ⟨by decide, h1.1 (by decide), (h2.2 (by decide)).1, (h2.2 (by decide)).2, h3⟩

/-! ## Claim C9 -/

/-- Claim C9 is false on the code: `OnBackendSuccess` on a backend with
no existing record returns immediately and creates nothing, so after a
first-reference `ReportSuccess("a")` the tracker holds no record for
"a" (the claim says a record with failure count 0 is created lazily). -/
theorem claim_C9_counterexample :
    lookupBackend (OnBackendSuccess NewCircuitBreaker "a").backends "a" = none ∧
    OnBackendSuccess NewCircuitBreaker "a" = NewCircuitBreaker := by
  constructor <;> rfl

/-- Claim C9 as amended: a `ReportSuccess(id)` call is a no-op when no
record for `id` exists (no lazy creation on success); when a record
exists its failure count becomes 0, its state flips to closed exactly
when it was half-open, and its failure time is unchanged. -/
theorem claim_C9_success_resets (cb : CircuitBreaker) (id : String) :
    (lookupBackend cb.backends id = none → OnBackendSuccess cb id = cb) ∧
    (∀ st : BackendState, lookupBackend cb.backends id = some st →
      lookupBackend (OnBackendSuccess cb id).backends id =
        some ⟨if st.state = .StateHalfOpen then .StateClosed else st.state, 0,
              st.lastFailureTime⟩) := by
  constructor
  · intro hnone
    simp [OnBackendSuccess, hnone]
  · intro st hst
    by_cases hh : st.state = CircuitState.StateHalfOpen
    · simp [OnBackendSuccess, hst, hh, lookup_insertBackend_self]
    · simp [OnBackendSuccess, hst, hh, lookup_insertBackend_self]

/-- Witness for C9 (amended): a half-open record with three failures is
reset to a closed record with zero failures by a success report. -/
theorem claim_C9_witness :
    lookupBackend (CircuitBreaker.mk [("a", ⟨.StateHalfOpen, 3, 7⟩)] 5 (10 * oneSecond)).backends
      "a" = some ⟨.StateHalfOpen, 3, 7⟩ ∧
    lookupBackend (OnBackendSuccess
        (CircuitBreaker.mk [("a", ⟨.StateHalfOpen, 3, 7⟩)] 5 (10 * oneSecond)) "a").backends "a" =
      some ⟨.StateClosed, 0, 7⟩ := by
  refine ⟨by decide, ?_⟩
  have h := (claim_C9_success_resets
    (CircuitBreaker.mk [("a", ⟨.StateHalfOpen, 3, 7⟩)] 5 (10 * oneSecond)) "a").2
    ⟨.StateHalfOpen, 3, 7⟩ (by decide)
  simpa using h

/-! ## Claim C10 -/

/-- Claim C10: the outbound request the dispatcher builds consists only
of the inbound method, the inbound path and query appended to the
backend base URL, and the inbound body, with a fresh empty header map;
and the dispatcher output is entirely independent of the inbound
request headers (so no inbound header can reach the backend). -/
theorem claim_C10_outbound_request :
    (∀ (b : String) (r : Request),
      buildProxyReq b r =
        { method := r.method,
          url := b ++ r.path ++ (if r.rawQuery = "" then "" else "?" ++ r.rawQuery),
          headers := [], body := r.body }) ∧
    (∀ (world : World) (w : RespWriter) (r : Request) (hs : List (String × String)),
      ProxyHandler.ServeHTTP world w { r with headers := hs } =
        ProxyHandler.ServeHTTP world w r) := by
  constructor
  · intro b r; rfl
  · intro world w r hs; rfl

/-! ## Claim C6: load balancer rotation -/

theorem avail_probe (cb : CircuitBreaker) (b : String) (now : Int)
    (h : backendAvailable cb b) :
    (IsBackendOpen cb b now).1 = false ∧
    ∀ b' : String, backendAvailable cb b' → backendAvailable (IsBackendOpen cb b now).2 b' := by
  unfold backendAvailable at h
  cases hlk : lookupBackend cb.backends b with
  | none =>
    refine ⟨by simp [IsBackendOpen, hlk], ?_⟩
    intro b' h'
    unfold backendAvailable at h' ⊢
    simp only [IsBackendOpen, hlk]
    by_cases hb : b = b'
    · subst hb; simp [lookup_insertBackend_self]
    · simpa [lookup_insertBackend_ne _ _ _ _ hb] using h'
  | some st =>
    rw [hlk] at h
    simp only [Option.map_some', Option.getD_some] at h
    have hno : st.state ≠ CircuitState.StateOpen := by simp [h]
    refine ⟨by simp [IsBackendOpen, hlk, hno], ?_⟩
    intro b' h'
    simpa [IsBackendOpen, hlk, hno] using h'

theorem Next_all_avail (lb : LoadBalancer) (cb : CircuitBreaker) (now : Int)
    (hne : lb.backends ≠ []) (hav : ∀ b ∈ lb.backends, backendAvailable cb b)
    (hnw : lb.current + 1 < uint64Mod) :
    (lb.Next cb now).1 = lb.backends.getD ((lb.current + 1) % lb.backends.length) "" ∧
    (lb.Next cb now).2.1 = { lb with current := lb.current + 1 } ∧
    ∀ b ∈ lb.backends, backendAvailable (lb.Next cb now).2.2 b := by
  have hlen : lb.backends.length ≠ 0 := fun h => hne (List.length_eq_zero.mp h)
  obtain ⟨n, hn⟩ := Nat.exists_eq_succ_of_ne_zero hlen
  have hpos : 0 < lb.backends.length := Nat.pos_of_ne_zero hlen
  have hmodlt : (lb.current + 1) % lb.backends.length < lb.backends.length :=
    Nat.mod_lt _ hpos
  have hmem : lb.backends.getD ((lb.current + 1) % lb.backends.length) "" ∈ lb.backends := by
    rw [List.getD_eq_getElem _ _ hmodlt]
    exact List.getElem_mem hmodlt
  have hprobe := avail_probe cb _ now (hav _ hmem)
  have hstart : (lb.current + 1) % uint64Mod = lb.current + 1 := Nat.mod_eq_of_lt hnw
  have hscan : scanBackends lb.backends (lb.current + 1) now
      (List.range lb.backends.length) cb =
      (lb.backends.getD ((lb.current + 1) % lb.backends.length) "",
       (IsBackendOpen cb (lb.backends.getD ((lb.current + 1) % lb.backends.length) "") now).2) := by
    rw [hn, List.range_succ_eq_map]
    simp only [scanBackends, Nat.add_zero, hstart, ← hn, hprobe.1]
    simp
  have hNext : lb.Next cb now =
      (lb.backends.getD ((lb.current + 1) % lb.backends.length) "",
       { lb with current := lb.current + 1 },
       (IsBackendOpen cb (lb.backends.getD ((lb.current + 1) % lb.backends.length) "") now).2) := by
    unfold LoadBalancer.Next
    rw [if_neg hlen]
    simp only [hstart, hscan]
  rw [hNext]
  exact ⟨rfl, rfl, fun b hb => hprobe.2 b (hav b hb)⟩

theorem nextCalls_avail (now : Int) : ∀ (n : Nat) (lb : LoadBalancer) (cb : CircuitBreaker),
    lb.backends ≠ [] → (∀ b ∈ lb.backends, backendAvailable cb b) →
    lb.current + n < uint64Mod →
    (nextCalls lb cb now n).1 =
      (List.range n).map
        (fun j => lb.backends.getD ((lb.current + 1 + j) % lb.backends.length) "") := by
  intro n
  induction n with
  | zero => intro lb cb _ _ _; simp [nextCalls]
  | succ n ih =>
    intro lb cb hne hav hnw
    have h1 := Next_all_avail lb cb now hne hav (by omega)
    have hbs : (lb.Next cb now).2.1.backends = lb.backends := by rw [h1.2.1]
    have hcur : (lb.Next cb now).2.1.current = lb.current + 1 := by rw [h1.2.1]
    have hrest := ih (lb.Next cb now).2.1 (lb.Next cb now).2.2
      (by rw [hbs]; exact hne) (by rw [hbs]; exact h1.2.2) (by rw [hcur]; omega)
    show (lb.Next cb now).1 ::
        (nextCalls (lb.Next cb now).2.1 (lb.Next cb now).2.2 now n).1 = _
    simp only [hrest, hbs, hcur, h1.1, List.range_succ_eq_map, List.map_cons,
      List.map_map, Nat.add_zero]
    congr 1
    apply List.map_congr_left
    intro j _
    simp only [Function.comp_apply]
    congr 1
    congr 1
    omega

theorem map_getD_range_eq_rotate (l : List String) (hne : l ≠ []) (s : Nat) :
    (List.range l.length).map (fun j => l.getD ((s + j) % l.length) "") =
      l.rotate (s % l.length) := by
  have hpos : 0 < l.length := List.length_pos.mpr hne
  apply List.ext_get
  · simp
  · intro i h₁ h₂
    have hi : i < l.length := by simpa using h₁
    have hmod : ∀ m : Nat, m % l.length < l.length := fun m => Nat.mod_lt _ hpos
    have hnat : (s + i) % l.length = (i + s % l.length) % l.length := by
      conv_lhs => rw [Nat.add_mod]
      rw [Nat.mod_eq_of_lt hi, Nat.add_comm (s % l.length) i]
    rw [List.get_map, List.get_range, List.getD_eq_get _ _ (hmod _), List.get_rotate]
    congr 1
    simp only [List.get_range]
    exact Fin.ext hnat

/-- Claim C6 is false on the code in its "including calls on an empty
pool" part: `Next` on an empty pool returns before touching the
counter, so the rotation counter stays 0 instead of increasing by 1. -/
theorem claim_C6_counterexample :
    ((LoadBalancer.New []).Next NewCircuitBreaker 0).2.1.current ≠
      (LoadBalancer.New []).current + 1 ∧
    ((LoadBalancer.New []).Next NewCircuitBreaker 0).2.1.current = 0 := by
  constructor <;> decide

/-- Claim C6 as amended: over a nonempty pool of size K with every
backend available (closed or unknown to the tracker) and no counter
wraparound in sight, K consecutive `Next` calls return the pool rotated
to start right after the stored counter — each backend exactly once, in
rotation order; every call on a nonempty pool advances the counter by
exactly 1 modulo 2^64 whatever the outcome; but a call on an empty pool
returns the empty backend and leaves the counter unchanged. -/
theorem claim_C6_rotation :
    (∀ (lb : LoadBalancer) (cb : CircuitBreaker) (now : Int),
      lb.backends ≠ [] → (∀ b ∈ lb.backends, backendAvailable cb b) →
      lb.current + lb.backends.length < uint64Mod →
      (nextCalls lb cb now lb.backends.length).1 =
        lb.backends.rotate ((lb.current + 1) % lb.backends.length) ∧
      (nextCalls lb cb now lb.backends.length).1.Perm lb.backends) ∧
    (∀ (lb : LoadBalancer) (cb : CircuitBreaker) (now : Int),
      lb.backends ≠ [] →
      (lb.Next cb now).2.1.current = (lb.current + 1) % uint64Mod) ∧
    (∀ (lb : LoadBalancer) (cb : CircuitBreaker) (now : Int),
      lb.backends = [] → lb.Next cb now = ("", lb, cb)) := by
  refine ⟨?_, ?_, ?_⟩
  · intro lb cb now hne hav hnw
    have h := nextCalls_avail now lb.backends.length lb cb hne hav hnw
    have hr := map_getD_range_eq_rotate lb.backends hne (lb.current + 1)
    rw [h, hr]
    exact ⟨rfl, List.rotate_perm _ _⟩
  · intro lb cb now hne
    have hlen : lb.backends.length ≠ 0 := fun h => hne (List.length_eq_zero.mp h)
    unfold LoadBalancer.Next
    rw [if_neg hlen]
  · intro lb cb now hemp
    simp [LoadBalancer.Next, hemp]

/-- Witness for C6 (amended) on the pool ["a", "b"] with a fresh
tracker: two calls return ["b", "a"] (the rotation starting after
counter 0), a single call on that pool advances the counter to 1, and a
call on the empty pool returns no backend with the counter untouched. -/
theorem claim_C6_witness :
    (nextCalls (LoadBalancer.New ["a", "b"]) NewCircuitBreaker 0 2).1 = ["b", "a"] ∧
    ((LoadBalancer.New ["a", "b"]).Next NewCircuitBreaker 0).2.1.current = 1 ∧
    (LoadBalancer.New []).Next NewCircuitBreaker 0 = ("", LoadBalancer.New [], NewCircuitBreaker) := by
  refine ⟨?_, ?_, ?_⟩
  · have h := (claim_C6_rotation.1 (LoadBalancer.New ["a", "b"]) NewCircuitBreaker 0
      (by decide) (by decide) (by decide)).1
    simpa using h
  · exact (claim_C6_rotation.2.1 (LoadBalancer.New ["a", "b"]) NewCircuitBreaker 0 (by decide))
  · exact claim_C6_rotation.2.2 (LoadBalancer.New []) NewCircuitBreaker 0 rfl

/-! ## Claim C5: rate limiter sliding window -/

theorem Allow_rps (rl : RateLimiter) (now : Int) : (rl.Allow now).2.rps = rl.rps := by
  by_cases hc : (rl.timestamps.filter (fun ts => decide (now - oneSecond < ts))).length < rl.rps
  · simp only [RateLimiter.Allow, if_pos hc]
  · simp only [RateLimiter.Allow, if_neg hc]

theorem Allow_len (rl : RateLimiter) (now : Int) (h : rl.timestamps.length ≤ rl.rps) :
    (rl.Allow now).2.timestamps.length ≤ rl.rps := by
  by_cases hc : (rl.timestamps.filter (fun ts => decide (now - oneSecond < ts))).length < rl.rps
  · simp only [RateLimiter.Allow, if_pos hc, List.length_append, List.length_singleton]
    omega
  · simp only [RateLimiter.Allow, if_neg hc]
    exact le_trans (List.length_filter_le _ _) h

theorem runAllow_rps (calls : List Int) : ∀ rl : RateLimiter,
    (runAllow rl calls).2.rps = rl.rps := by
  induction calls with
  | nil => intro rl; rfl
  | cons c cs ih => intro rl; simp only [runAllow]; rw [ih, Allow_rps]

theorem runAllow_len (calls : List Int) : ∀ rl : RateLimiter,
    rl.timestamps.length ≤ rl.rps →
    (runAllow rl calls).2.timestamps.length ≤ rl.rps := by
  induction calls with
  | nil => intro rl h; exact h
  | cons c cs ih =>
    intro rl h
    simp only [runAllow]
    have h2 := ih (rl.Allow c).2 (by rw [Allow_rps]; exact Allow_len rl c h)
    rw [Allow_rps] at h2
    exact h2

theorem admittedTimes_append (l₂ : List Int) : ∀ (l₁ : List Int) (rl : RateLimiter),
    admittedTimes rl (l₁ ++ l₂) =
      admittedTimes rl l₁ ++ admittedTimes (runAllow rl l₁).2 l₂ := by
  intro l₁
  induction l₁ with
  | nil => intro rl; rfl
  | cons c cs ih =>
    intro rl
    simp only [List.cons_append, admittedTimes, runAllow]
    by_cases hb : (rl.Allow c).1 = true
    · simp [hb, ih]
    · simp [hb, ih]

theorem mem_admittedTimes (a : Int) : ∀ (calls : List Int) (rl : RateLimiter),
    a ∈ admittedTimes rl calls → a ∈ calls := by
  intro calls
  induction calls with
  | nil => intro rl h; simpa [admittedTimes] using h
  | cons c cs ih =>
    intro rl h
    simp only [admittedTimes] at h
    by_cases hb : (rl.Allow c).1 = true
    · rw [if_pos hb] at h
      rcases List.mem_cons.mp h with h1 | h2
      · exact h1 ▸ List.mem_cons_self _ _
      · exact List.mem_cons_of_mem _ (ih _ h2)
    · rw [if_neg hb] at h
      exact List.mem_cons_of_mem _ (ih _ h)

theorem dropWhile_all_gt (t : Int) : ∀ calls : List Int, calls.Pairwise (· ≤ ·) →
    ∀ x ∈ calls.dropWhile (fun c => decide (c ≤ t)), ¬ x ≤ t := by
  intro calls
  induction calls with
  | nil => intro _ x hx; simp [List.dropWhile] at hx
  | cons c cs ih =>
    intro hp x hx
    rcases List.pairwise_cons.mp hp with ⟨hc, hcs⟩
    by_cases hct : c ≤ t
    · rw [List.dropWhile_cons_of_pos (by simpa using hct)] at hx
      exact ih hcs x hx
    · rw [List.dropWhile_cons_of_neg (by simpa using hct)] at hx
      rcases List.mem_cons.mp hx with rfl | hx'
      · exact hct
      · have hle := hc x hx'
        omega

theorem window_invariant (t : Int) : ∀ (calls : List Int) (rl : RateLimiter),
    rl.timestamps.length ≤ rl.rps → (∀ c ∈ calls, c ≤ t) →
    rl.timestamps.countP (fun a => decide (t - oneSecond < a ∧ a ≤ t)) +
      (admittedTimes rl calls).countP (fun a => decide (t - oneSecond < a ∧ a ≤ t)) ≤
      rl.rps := by
  intro calls
  induction calls with
  | nil =>
    intro rl hlen _
    simp only [admittedTimes, List.countP_nil, Nat.add_zero]
    exact le_trans (List.countP_le_length _) hlen
  | cons c cs ih =>
    intro rl hlen hle
    have hct : c ≤ t := hle c (List.mem_cons_self _ _)
    have hcs : ∀ x ∈ cs, x ≤ t := fun x hx => hle x (List.mem_cons_of_mem _ hx)
    have hprune : (rl.timestamps.filter (fun ts => decide (c - oneSecond < ts))).countP
        (fun a => decide (t - oneSecond < a ∧ a ≤ t)) =
        rl.timestamps.countP (fun a => decide (t - oneSecond < a ∧ a ≤ t)) := by
      rw [List.countP_filter]
      apply List.countP_congr
      intro x _
      simp only [Bool.and_eq_true, decide_eq_true_eq]
      constructor
      · exact fun h => h.1
      · intro h
        exact ⟨h, by omega⟩
    by_cases hadm :
        (rl.timestamps.filter (fun ts => decide (c - oneSecond < ts))).length < rl.rps
    · have hstep : rl.Allow c = (true,
          ⟨rl.timestamps.filter (fun ts => decide (c - oneSecond < ts)) ++ [c], rl.rps⟩) := by
        simp [RateLimiter.Allow, hadm]
      simp only [admittedTimes, hstep, if_pos]
      have hlen' : (rl.timestamps.filter (fun ts => decide (c - oneSecond < ts)) ++ [c]).length
          ≤ rl.rps := by
        simp only [List.length_append, List.length_singleton]
        omega
      have hih := ih ⟨rl.timestamps.filter (fun ts => decide (c - oneSecond < ts)) ++ [c],
        rl.rps⟩ hlen' hcs
      simp only [List.countP_append, List.countP_singleton] at hih
      rw [List.countP_cons, ← hprune]
      omega
    · have hstep : rl.Allow c = (false,
          ⟨rl.timestamps.filter (fun ts => decide (c - oneSecond < ts)), rl.rps⟩) := by
        simp [RateLimiter.Allow, hadm]
      simp only [admittedTimes, hstep, if_neg, Bool.false_eq_true, ite_false]
      have hlen' : (rl.timestamps.filter (fun ts => decide (c - oneSecond < ts))).length
          ≤ rl.rps := le_trans (List.length_filter_le _ _) hlen
      have hih := ih ⟨rl.timestamps.filter (fun ts => decide (c - oneSecond < ts)),
        rl.rps⟩ hlen' hcs
      rw [← hprune]
      exact hih

/-- Claim C5: starting from a fresh limiter with limit N and feeding any
monotone (serialized clock) sequence of call times through `Allow`, at
most N admitted calls fall inside any trailing one-second window
(times in `(t - 1s, t]` for every t), and the retained window never
exceeds N entries. -/
theorem claim_C5_sliding_window (rps : Nat) (calls : List Int)
    (hmono : calls.Pairwise (· ≤ ·)) :
    (∀ t : Int, (admittedTimes (NewRateLimiter rps) calls).countP
        (fun a => decide (t - oneSecond < a ∧ a ≤ t)) ≤ rps) ∧
    (runAllow (NewRateLimiter rps) calls).2.timestamps.length ≤ rps := by
  constructor
  · intro t
    have hsplit := List.takeWhile_append_dropWhile (p := fun c => decide (c ≤ t)) (l := calls)
    conv_lhs => rw [← hsplit]
    rw [admittedTimes_append, List.countP_append]
    have hdrop : (admittedTimes
        (runAllow (NewRateLimiter rps) (calls.takeWhile fun c => decide (c ≤ t))).2
        (calls.dropWhile fun c => decide (c ≤ t))).countP
        (fun a => decide (t - oneSecond < a ∧ a ≤ t)) = 0 := by
      rw [List.countP_eq_zero]
      intro a ha
      have hmem := mem_admittedTimes a _ _ ha
      have hgt := dropWhile_all_gt t calls hmono a hmem
      simp only [decide_eq_true_eq, not_and]
      intro _
      exact fun h => hgt h
    have htake := window_invariant t (calls.takeWhile fun c => decide (c ≤ t))
      (NewRateLimiter rps) (by simp [NewRateLimiter])
      (fun x hx => by simpa using List.mem_takeWhile_imp hx)
    have htimestamps : (NewRateLimiter rps).timestamps = [] := rfl
    have hrps : (NewRateLimiter rps).rps = rps := rfl
    rw [htimestamps, List.countP_nil, Nat.zero_add, hrps] at htake
    omega
  · exact runAllow_len calls _ (by simp [NewRateLimiter])

/-- Witness for C5: limit 2 with the burst [0, 0, 0] followed by a call
1.5 s later admits [0, 0, 1500000000]; the window ending at time 0
holds 2 admitted calls (at the limit) and the retained window holds 2
entries. -/
theorem claim_C5_witness :
    ([(0 : Int), 0, 0, 1500000000].Pairwise (· ≤ ·)) ∧
    (admittedTimes (NewRateLimiter 2) [0, 0, 0, 1500000000]).countP
      (fun a => decide ((0 : Int) - oneSecond < a ∧ a ≤ 0)) ≤ 2 ∧
    (runAllow (NewRateLimiter 2) [0, 0, 0, 1500000000]).2.timestamps.length ≤ 2 := by
  have h := claim_C5_sliding_window 2 [0, 0, 0, 1500000000] (by decide)
  exact ⟨by decide, h.1 0, h.2⟩

/-! ## Claim C2: pipeline composition order -/

/-- Claim C2 is false on the code: the Go `Chain` makes the FIRST
supplied middleware outermost, and `createHandler` supplies the rate
limiter first, so the built handler and the claimed composition
(logging outermost, admission innermost) behave differently.  On a
request denied by a zero rate limit, the code handler rejects at the
outermost admission stage and never consults the health tracker (no
record is created), while the claimed composition would run the
health-tracking stage first and lazily create a record for the URL
host. -/
theorem claim_C2_counterexample :
    (Server.createHandler (demoWorld 0 ["http://a"] (fun _ => none)) NewWriter
      (demoRequest "h")).1.cb.backends = [] ∧
    (claimedPipelineHandler (demoWorld 0 ["http://a"] (fun _ => none)) NewWriter
      (demoRequest "h")).1.cb.backends ≠ [] := by
  constructor <;> decide

/-- Claim C2 as amended: `Chain` puts the first supplied stage
outermost, so the handler built for the proxy route runs the admission
(rate limiting) stage outermost, the health-tracking (circuit breaker)
stage next, and the observability (logging) stage innermost, wrapped
immediately around the terminal dispatcher; consequently a request
denied by admission is answered 429 directly and never touches the
health tracker. -/
theorem claim_C2_pipeline_order :
    (∀ (h : Handler) (m₁ m₂ m₃ : Handler → Handler),
      Chain h [m₁, m₂, m₃] = m₁ (m₂ (m₃ h))) ∧
    Server.createHandler =
      RateLimiter.Middleware (CircuitBreaker.Middleware (Logging ProxyHandler.ServeHTTP)) ∧
    (∀ (world : World) (w : RespWriter) (r : Request),
      (world.rl.Allow world.now).1 = false →
      Server.createHandler world w r =
        ({ world with rl := (world.rl.Allow world.now).2 },
         HandleError w ⟨429, "Rate limit exceeded"⟩)) := by
  refine ⟨fun h m₁ m₂ m₃ => rfl, rfl, ?_⟩
  intro world w r hdeny
  show RateLimiter.Middleware _ world w r = _
  simp [RateLimiter.Middleware, hdeny]

/-- Witness for C2 (amended): with a zero rate limit the built handler
returns the 429 error response and only the limiter state changes. -/
theorem claim_C2_witness :
    ((demoWorld 0 ["http://a"] (fun _ => none)).rl.Allow
      (demoWorld 0 ["http://a"] (fun _ => none)).now).1 = false ∧
    Server.createHandler (demoWorld 0 ["http://a"] (fun _ => none)) NewWriter
        (demoRequest "h") =
      ({ demoWorld 0 ["http://a"] (fun _ => none) with
          rl := ((demoWorld 0 ["http://a"] (fun _ => none)).rl.Allow
            (demoWorld 0 ["http://a"] (fun _ => none)).now).2 },
       HandleError NewWriter ⟨429, "Rate limit exceeded"⟩) := by
  refine ⟨by decide, ?_⟩
  exact claim_C2_pipeline_order.2.2 (demoWorld 0 ["http://a"] (fun _ => none)) NewWriter
    (demoRequest "h") (by decide)

/-! ## Claim C7: health-tracking stage reporting -/

/-- Claim C7 is false on the code in its "keyed by the backend targeted
by that request" part: the health-tracking middleware keys its reports
on the inbound request URL host, not on the backend the dispatcher
targets.  Concretely, with pool ["http://a"] and an unreachable
network, a request whose URL host is "http://b" completes with one
failure recorded for the targeted backend "http://a" (reported by the
dispatcher alone) and one failure recorded for "http://b" (reported by
the stage) — had the stage keyed its report by the targeted backend,
"http://a" would hold two failures and "http://b" none. -/
theorem claim_C7_counterexample :
    (lookupBackend (Server.createHandler (demoWorld 1 ["http://a"] (fun _ => none))
        NewWriter (demoRequest "http://b")).1.cb.backends "http://a").map
        BackendState.failureCount = some 1 ∧
    (lookupBackend (Server.createHandler (demoWorld 1 ["http://a"] (fun _ => none))
        NewWriter (demoRequest "http://b")).1.cb.backends "http://b").map
        BackendState.failureCount = some 1 := by
  constructor <;> decide

/-- Claim C7 as amended: for every request the health-tracking stage
admits (its entry check reports the circuit not open), the stage runs
the inner handler on a freshly wrapped writer and afterwards reports a
failure when the status recorded by its wrapper is 500 or more and a
success otherwise, keyed by the inbound request URL host — which need
not be the backend the dispatcher targeted. -/
theorem claim_C7_health_stage (next : Handler) (world : World) (w : RespWriter)
    (r : Request)
    (hopen : (IsBackendOpen world.cb r.urlHost world.now).1 = false) :
    CircuitBreaker.Middleware next world w r =
      (let res := next { world with cb := (IsBackendOpen world.cb r.urlHost world.now).2 }
        w.pushWrapper r
       if 500 ≤ res.2.wrappers.getD w.wrappers.length 0 then
         ({ res.1 with cb := OnBackendFailure res.1.cb r.urlHost res.1.now }, res.2)
       else
         ({ res.1 with cb := OnBackendSuccess res.1.cb r.urlHost }, res.2)) := by
  simp [CircuitBreaker.Middleware, hopen]

/-- Witness for C7 (amended) with a trivial inner handler that writes
nothing: the stage admits a fresh-host request and reports success for
the URL host afterwards. -/
theorem claim_C7_witness :
    (IsBackendOpen (demoWorld 1 [] (fun _ => none)).cb (demoRequest "x").urlHost
      (demoWorld 1 [] (fun _ => none)).now).1 = false ∧
    CircuitBreaker.Middleware (fun world w r => (world, w))
        (demoWorld 1 [] (fun _ => none)) NewWriter (demoRequest "x") =
      (let res := (fun (world : World) (w : RespWriter) (_ : Request) => (world, w))
        { demoWorld 1 [] (fun _ => none) with
          cb := (IsBackendOpen (demoWorld 1 [] (fun _ => none)).cb
            (demoRequest "x").urlHost (demoWorld 1 [] (fun _ => none)).now).2 }
        NewWriter.pushWrapper (demoRequest "x")
       if 500 ≤ res.2.wrappers.getD NewWriter.wrappers.length 0 then
         ({ res.1 with cb := OnBackendFailure res.1.cb (demoRequest "x").urlHost res.1.now },
          res.2)
       else
         ({ res.1 with cb := OnBackendSuccess res.1.cb (demoRequest "x").urlHost }, res.2)) := by
  exact ⟨by decide, claim_C7_health_stage (fun world w r => (world, w))
    (demoWorld 1 [] (fun _ => none)) NewWriter (demoRequest "x") (by decide)⟩

/-! ## Claim C1: dispatcher success path -/

/-- Claim C1 is false on the code in its "status code, headers, and
body all unmodified" part: the dispatcher only copies the response
body; it never copies the backend status code or headers.  With a
backend answering 404 with a header and body "hi", the caller receives
the implicit status 200, no headers, and body "hi", while the response
counter is incremented. -/
theorem claim_C1_counterexample :
    (ProxyHandler.ServeHTTP
      (demoWorld 1 ["http://a"] (fun _ => some ⟨404, [("X-Foo", "bar")], ['h', 'i'], true⟩))
      NewWriter (demoRequest "")).2.base.status = some 200 ∧
    (ProxyHandler.ServeHTTP
      (demoWorld 1 ["http://a"] (fun _ => some ⟨404, [("X-Foo", "bar")], ['h', 'i'], true⟩))
      NewWriter (demoRequest "")).2.base.status ≠ some 404 ∧
    (ProxyHandler.ServeHTTP
      (demoWorld 1 ["http://a"] (fun _ => some ⟨404, [("X-Foo", "bar")], ['h', 'i'], true⟩))
      NewWriter (demoRequest "")).2.base.headers = [] ∧
    (ProxyHandler.ServeHTTP
      (demoWorld 1 ["http://a"] (fun _ => some ⟨404, [("X-Foo", "bar")], ['h', 'i'], true⟩))
      NewWriter (demoRequest "")).2.base.body = ['h', 'i'] ∧
    (ProxyHandler.ServeHTTP
      (demoWorld 1 ["http://a"] (fun _ => some ⟨404, [("X-Foo", "bar")], ['h', 'i'], true⟩))
      NewWriter (demoRequest "")).1.metrics.ResponseCount = 1 := by
  refine ⟨by decide, by decide, by decide, by decide, by decide⟩

/-- Claim C1 as amended: on a forwarded request whose backend call
completes and whose body copy succeeds, the dispatcher reports success
to the health tracker for the chosen backend, appends the backend body
verbatim to the response, and increments the response counter — but it
does not transfer the backend status code or headers to the caller
(the writer only receives the body bytes). -/
theorem claim_C1_success_path (world : World) (w : RespWriter) (r : Request)
    (b : String) (lb' : LoadBalancer) (cb' : CircuitBreaker)
    (hnext : world.lb.Next world.cb world.now = (b, lb', cb'))
    (hb : b ≠ "")
    (hok : world.newRequestOk (buildProxyReq b r) = true)
    (resp : BackendResponse)
    (hnet : world.net (buildProxyReq b r) = some resp)
    (hcopy : resp.bodyOk = true) :
    ProxyHandler.ServeHTTP world w r =
      ({ world with
          lb := lb',
          cb := OnBackendSuccess cb' b,
          metrics := (world.metrics.IncRequest).IncResponse },
       if resp.body.isEmpty then w.pushWrapper else w.pushWrapper.write resp.body) := by
  simp only [ProxyHandler.ServeHTTP, hnext, hok, hnet, hcopy, if_neg hb, if_true]

/-- Witness for C1 (amended): the concrete 404-with-header scenario of
the counterexample satisfies every hypothesis, and the amended
conclusion evaluates on it. -/
theorem claim_C1_witness :
    (demoWorld 1 ["http://a"]
        (fun _ => some ⟨404, [("X-Foo", "bar")], ['h', 'i'], true⟩)).lb.Next
        (demoWorld 1 ["http://a"]
          (fun _ => some ⟨404, [("X-Foo", "bar")], ['h', 'i'], true⟩)).cb 0 =
      ("http://a", ⟨["http://a"], 1⟩,
        ⟨[("http://a", ⟨.StateClosed, 0, 0⟩)], 5, 10 * oneSecond⟩) ∧
    ProxyHandler.ServeHTTP
        (demoWorld 1 ["http://a"]
          (fun _ => some ⟨404, [("X-Foo", "bar")], ['h', 'i'], true⟩))
        NewWriter (demoRequest "") =
      ({ demoWorld 1 ["http://a"]
            (fun _ => some ⟨404, [("X-Foo", "bar")], ['h', 'i'], true⟩) with
          lb := ⟨["http://a"], 1⟩,
          cb := OnBackendSuccess ⟨[("http://a", ⟨.StateClosed, 0, 0⟩)], 5, 10 * oneSecond⟩
            "http://a",
          metrics := (Metrics.New.IncRequest).IncResponse },
       if (['h', 'i'].isEmpty : Bool) then NewWriter.pushWrapper
       else NewWriter.pushWrapper.write ['h', 'i']) := by
  refine ⟨by decide, ?_⟩
  exact claim_C1_success_path
    (demoWorld 1 ["http://a"] (fun _ => some ⟨404, [("X-Foo", "bar")], ['h', 'i'], true⟩))
    NewWriter (demoRequest "") "http://a"
    ⟨["http://a"], 1⟩ ⟨[("http://a", ⟨.StateClosed, 0, 0⟩)], 5, 10 * oneSecond⟩
    (by decide) (by decide) rfl ⟨404, [("X-Foo", "bar")], ['h', 'i'], true⟩ rfl rfl

/-! ## Claim C8: error paths, counters and responses -/

/-- Claim C8 is false on the code for the CapacityExceeded kind: a
request denied by the rate limiter receives the 429 error response,
yet the shared error counter stays 0 — the admission middleware has no
access to the metrics (the same holds for CircuitOpenAtEntry). -/
theorem claim_C8_counterexample :
    (Server.createHandler (demoWorld 0 ["http://a"] (fun _ => none)) NewWriter
      (demoRequest "h")).1.metrics.ErrorCount = 0 ∧
    (Server.createHandler (demoWorld 0 ["http://a"] (fun _ => none)) NewWriter
      (demoRequest "h")).2.base.status = some 429 := by
  constructor <;> decide

/-- Claim C8 as amended: every error kind writes exactly one error
response (a definite status on the previously untouched base writer),
but only the dispatcher error kinds touch the shared error counter:
CapacityExceeded (429) and CircuitOpenAtEntry (503 from the
health-tracking stage) leave the metrics untouched, while
NoBackendAvailable (503), UpstreamUnreachable (502) and
ResponseCopyFailure (500, or an already-sent 200 when body bytes had
been copied) increment the error counter exactly once. -/
theorem claim_C8_error_paths (world : World) (r : Request) :
    ((world.rl.Allow world.now).1 = false →
      (Server.createHandler world NewWriter r).1.metrics = world.metrics ∧
      (Server.createHandler world NewWriter r).2.base.status = some 429) ∧
    ((world.rl.Allow world.now).1 = true →
      ((IsBackendOpen world.cb r.urlHost world.now).1 = true →
        (Server.createHandler world NewWriter r).1.metrics = world.metrics ∧
        (Server.createHandler world NewWriter r).2.base.status = some 503) ∧
      ((IsBackendOpen world.cb r.urlHost world.now).1 = false →
        ((world.lb.Next (IsBackendOpen world.cb r.urlHost world.now).2 world.now).1 = "" →
          (Server.createHandler world NewWriter r).1.metrics =
            (world.metrics.IncRequest).IncError ∧
          (Server.createHandler world NewWriter r).2.base.status = some 503) ∧
        (∀ b : String, b ≠ "" →
          (world.lb.Next (IsBackendOpen world.cb r.urlHost world.now).2 world.now).1 = b →
          world.newRequestOk (buildProxyReq b r) = true →
          (world.net (buildProxyReq b r) = none →
            (Server.createHandler world NewWriter r).1.metrics =
              (world.metrics.IncRequest).IncError ∧
            (Server.createHandler world NewWriter r).2.base.status = some 502) ∧
          (∀ resp : BackendResponse, world.net (buildProxyReq b r) = some resp →
            resp.bodyOk = false →
            (Server.createHandler world NewWriter r).1.metrics =
              (world.metrics.IncRequest).IncError ∧
            (Server.createHandler world NewWriter r).2.base.status =
              some (if resp.body.isEmpty then 500 else 200))))) := by
  constructor
  · intro hdeny
    constructor <;>
      simp [Server.createHandler, Chain, RateLimiter.Middleware, hdeny, HandleError,
        RespWriter.setHeader, RespWriter.writeHeader, RespWriter.write, NewWriter]
  · intro hallow
    constructor
    · intro hopen
      constructor <;>
        simp [Server.createHandler, Chain, RateLimiter.Middleware, hallow,
          CircuitBreaker.Middleware, hopen, HandleError,
          RespWriter.setHeader, RespWriter.writeHeader, RespWriter.write, NewWriter]
    · intro hnotopen
      constructor
      · intro hnone
        constructor <;>
          simp [Server.createHandler, Chain, RateLimiter.Middleware, hallow,
            CircuitBreaker.Middleware, hnotopen, Logging, ProxyHandler.ServeHTTP, hnone,
            HandleError, RespWriter.setHeader, RespWriter.writeHeader, RespWriter.write,
            RespWriter.pushWrapper, NewWriter]
      · intro b hb hnext hok
        constructor
        · intro hnet
          constructor <;>
            simp [Server.createHandler, Chain, RateLimiter.Middleware, hallow,
              CircuitBreaker.Middleware, hnotopen, Logging, ProxyHandler.ServeHTTP, hnext,
              hb, hok, hnet, HandleError, RespWriter.setHeader, RespWriter.writeHeader,
              RespWriter.write, RespWriter.pushWrapper, NewWriter]
        · intro resp hnet hfail
          by_cases hbody : resp.body.isEmpty
          all_goals constructor <;>
            simp [Server.createHandler, Chain, RateLimiter.Middleware, hallow,
              CircuitBreaker.Middleware, hnotopen, Logging, ProxyHandler.ServeHTTP, hnext,
              hb, hok, hnet, hfail, hbody, HandleError, RespWriter.setHeader,
              RespWriter.writeHeader, RespWriter.write, RespWriter.pushWrapper, NewWriter]

/-- Witness for C8 (amended) at two concrete scenarios: a zero rate
limit gives a 429 with untouched metrics, and an unreachable backend
gives a 502 with the error counter incremented. -/
theorem claim_C8_witness :
    ((demoWorld 0 ["http://a"] (fun _ => none)).rl.Allow
        (demoWorld 0 ["http://a"] (fun _ => none)).now).1 = false ∧
    (Server.createHandler (demoWorld 0 ["http://a"] (fun _ => none)) NewWriter
        (demoRequest "h")).1.metrics = (demoWorld 0 ["http://a"] (fun _ => none)).metrics ∧
    (Server.createHandler (demoWorld 1 ["http://a"] (fun _ => none)) NewWriter
        (demoRequest "h")).1.metrics =
      ((demoWorld 1 ["http://a"] (fun _ => none)).metrics.IncRequest).IncError ∧
    (Server.createHandler (demoWorld 1 ["http://a"] (fun _ => none)) NewWriter
        (demoRequest "h")).2.base.status = some 502 := by
  have h1 := (claim_C8_error_paths (demoWorld 0 ["http://a"] (fun _ => none))
    (demoRequest "h")).1 (by decide)
  have h2 := ((((claim_C8_error_paths (demoWorld 1 ["http://a"] (fun _ => none))
    (demoRequest "h")).2 (by decide)).2 (by decide)).2 "http://a" (by decide) (by decide)
    (by decide)).1 rfl
  exact ⟨by decide, h1.1, h2.1, h2.2⟩
